import Mathlib

/-!
Verification of the cpp-stack-tracer core against its specification.

Part 1: the sample-to-span synthesizer, a shallow embedding of
`convertToTrace` from `src/simple_sampler.cpp`.

The C++ sample timestamps are `double`; the algorithm never computes with
them (they are only copied into events), so we embed them as exact
rationals `ℚ`, on which the literals of the examples (7.5, 9.2, 10.7) are
representable exactly.
-/

namespace CppStackTracer

/-- `struct Sample { double ts; std::vector<std::string> stack; }` -/
structure Sample where
  ts : ℚ
  stack : List String
deriving DecidableEq, Repr

/-- `struct Event { double ts; std::string kind; std::string name; }` -/
structure Event where
  ts : ℚ
  kind : String
  name : String
deriving DecidableEq, Repr

/-- The `while` loop of `convertToTrace` step 1 ("End functions that
disappeared").  The C++ loop inspects `running.back()` and pops from the
back of the vector, so we recurse over the *reversed* running stack
(top-of-stack first); `acc` is the `result` vector accumulated so far.
Returns the events vector and the remaining (still reversed) running
stack. -/
def closeLoopRev (ts : ℚ) (stack : List String) (acc : List Event) :
    List String → List Event × List String
  | [] => (acc, [])
  | top :: rest =>
    if stack.contains top then (acc, top :: rest)
    else closeLoopRev ts stack (acc ++ [⟨ts, "end", top⟩]) rest

/-- Step 1 of `convertToTrace` on the running stack in source order
(root at the front, top of stack at the back, as in the C++ vector). -/
def closeLoop (ts : ℚ) (stack running : List String) (acc : List Event) :
    List Event × List String :=
  let r := closeLoopRev ts stack acc running.reverse
  (r.1, r.2.reverse)

/-- The `for` loop of `convertToTrace` step 2 ("Start new functions"):
for each name of the sample's stack in order, if it is not a member of
`running`, push a Start event and append the name to `running`. -/
def openLoop (ts : ℚ) (running : List String) (acc : List Event) :
    List String → List Event × List String
  | [] => (acc, running)
  | f :: rest =>
    if running.contains f then openLoop ts running acc rest
    else openLoop ts (running ++ [f]) (acc ++ [⟨ts, "start", f⟩]) rest

/-- One iteration of the outer `for (const auto& sample : samples)` loop:
the pair is `(result, running)`. -/
def processSample (st : List Event × List String) (sample : Sample) :
    List Event × List String :=
  let r := closeLoop sample.ts sample.stack st.2 st.1
  openLoop sample.ts r.2 r.1 sample.stack

/-- The full loop of `convertToTrace`, returning both the `result`
events and the final `running` stack. -/
def convertToTraceFull (samples : List Sample) : List Event × List String :=
  samples.foldl processSample ([], [])

/-- `std::vector<Event> convertToTrace(const std::vector<Sample>&)`:
returns the `result` vector. -/
def convertToTrace (samples : List Sample) : List Event :=
  (convertToTraceFull samples).1

/-! Spec-side formulation of the synthesizer, written from the words of
the specification (§4.4) for comparison with `convertToTrace`:

1. "Close stale frames: while RunningStack is non-empty and its topmost
   frame name does not occur anywhere in the current sample's stack,
   emit an End event for that frame at the sample's timestamp and remove
   it from RunningStack" — i.e. the closed frames are the maximal
   top-down run of frames absent from the sample's stack.
2. "Open new frames: for each frame name in the sample's stack, in
   root-to-leaf order, if that name is not already present in
   RunningStack, emit a Start event for it at the sample's timestamp and
   append it to RunningStack." -/

/-- Spec-side close step: the stale frames are the longest top-of-stack
run (head of the reversed running stack) of names absent from the
sample's stack; End events are emitted for them top-down. -/
def specCloseStale (ts : ℚ) (stack running : List String) :
    List Event × List String :=
  ((running.reverse.takeWhile (fun f => !stack.contains f)).map
      (fun f => ⟨ts, "end", f⟩),
   (running.reverse.dropWhile (fun f => !stack.contains f)).reverse)

/-- Spec-side open step for one frame name of the sample's stack. -/
def specOpenStep (ts : ℚ) (st : List Event × List String) (f : String) :
    List Event × List String :=
  if st.2.contains f then st else (st.1 ++ [⟨ts, "start", f⟩], st.2 ++ [f])

/-- Spec-side "open new frames", over the sample's stack in
root-to-leaf order. -/
def specOpenNew (ts : ℚ) (stack running : List String) :
    List Event × List String :=
  stack.foldl (specOpenStep ts) ([], running)

/-- Spec-side processing of one sample: close stale frames first, then
open new frames. -/
def specStep (st : List Event × List String) (sample : Sample) :
    List Event × List String :=
  let c := specCloseStale sample.ts sample.stack st.2
  let o := specOpenNew sample.ts sample.stack c.2
  (st.1 ++ c.1 ++ o.1, o.2)

/-- Spec-side synthesizer over the whole sample sequence. -/
def specSynthesize (samples : List Sample) : List Event :=
  (samples.foldl specStep ([], [])).1

/-- Number of events of a given kind in an event list. -/
def countKind (k : String) (l : List Event) : Nat :=
  l.countP (fun e => e.kind == k)

/-! Shallow embedding of `instrumentor.h`.

State that the C++ code holds in the `Instrumentor` singleton and in the
`std::ofstream` is made explicit.  The monotonic clock
(`instrumentation::detail::nowUs`) is threaded as an explicit `now`
argument to the operations that call it; whether `std::ofstream::open`
succeeds is threaded as an explicit `avail` argument.  `uint64_t`
arithmetic is `Nat` arithmetic modulo `2 ^ 64`.  Stream semantics follow
iostreams: writing to a stream that is not open sets the fail state and
emits nothing, and a failed stream drops all further output. -/

/-- Modulus of `uint64_t` arithmetic. -/
def U64MOD : Nat := 2 ^ 64

/-- Unsigned 64-bit subtraction `a - b` with two's-complement
wraparound, as `uint64_t` subtraction behaves. -/
def sub64 (a b : Nat) : Nat := (a + U64MOD - b % U64MOD) % U64MOD

/-- `struct ProfileResult { std::string name; uint64_t startUs, endUs;
uint32_t threadId; }` -/
structure ProfileResult where
  name : String
  startUs : Nat
  endUs : Nat
  threadId : Nat
deriving DecidableEq, Repr

/-- Model of `std::ofstream m_outputStream`: the path currently open (if
any), the stream's good/fail state, and the bytes written to the
currently open file. -/
structure OutStream where
  openPath : Option String
  good : Bool
  buffer : String
deriving DecidableEq, Repr

/-- `operator<<` then `flush`: appends when the stream is open and good;
writing to a non-open stream sets the fail state; a failed stream drops
the output. -/
def streamWrite (txt : String) (st : OutStream) : OutStream :=
  match st.openPath with
  | some _ => if st.good then { st with buffer := st.buffer ++ txt } else st
  | none => { st with good := false }

/-- `open(filepath, std::ios::out | std::ios::trunc)`: truncating open;
`avail` says whether the destination can be opened; opening an
already-open stream fails. -/
def streamOpenTrunc (avail : Bool) (path : String) (st : OutStream) :
    OutStream :=
  match st.openPath with
  | some _ => { st with good := false }
  | none =>
    if avail then { openPath := some path, good := true, buffer := "" }
    else { st with good := false }

/-- `close()`: the written bytes become the closed file's contents;
closing a non-open stream sets the fail state. -/
def streamClose (st : OutStream) : OutStream × Option (String × String) :=
  match st.openPath with
  | some p =>
    ({ openPath := none, good := st.good, buffer := "" }, some (p, st.buffer))
  | none => ({ st with good := false }, none)

/-- The `Instrumentor` singleton's fields, plus `files`: the log of the
file system, holding each (path, contents) pair the stream has closed,
in close order. -/
structure InstrumentorState where
  sessionName : String
  currentSessionActive : Bool
  outputStream : OutStream
  profileCount : Int
  sessionStartUs : Nat
  files : List (String × String)
deriving DecidableEq, Repr

/-- The private `Instrumentor()` constructor, with an empty file system. -/
def initialInstrumentor : InstrumentorState :=
  { sessionName := ""
    currentSessionActive := false
    outputStream := { openPath := none, good := true, buffer := "" }
    profileCount := 0
    sessionStartUs := 0
    files := [] }

/-- The envelope header written by `writeHeader`. -/
def headerStr : String := "\x7b\"otherData\": \x7b\x7d,\"traceEvents\":["

/-- The envelope footer written by `writeFooter`. -/
def footerStr : String := "]\x7d"

/-- `Instrumentor::writeHeader`. -/
def writeHeader (s : InstrumentorState) : InstrumentorState :=
  { s with outputStream := streamWrite headerStr s.outputStream }

/-- `Instrumentor::writeFooter`. -/
def writeFooter (s : InstrumentorState) : InstrumentorState :=
  { s with outputStream := streamWrite footerStr s.outputStream }

/-- `Instrumentor::endSession`: no-op when no session is active;
otherwise writes the footer, closes the stream, and resets the session
state. -/
def endSession (s : InstrumentorState) : InstrumentorState :=
  if s.currentSessionActive then
    let s1 := writeFooter s
    let c := streamClose s1.outputStream
    { s1 with
      outputStream := c.1
      files := s1.files ++ c.2.toList
      currentSessionActive := false
      profileCount := 0
      sessionStartUs := 0 }
  else s

/-- `Instrumentor::beginSession`: ends any active session first, opens
and truncates the output file, writes the header, and initializes the
session state (`m_sessionStartUs` is the clock value `now`). -/
def beginSession (name filepath : String) (avail : Bool) (now : Nat)
    (s : InstrumentorState) : InstrumentorState :=
  let s1 := if s.currentSessionActive then endSession s else s
  let s2 := { s1 with
    outputStream := streamOpenTrunc avail filepath s1.outputStream }
  let s3 := writeHeader s2
  { s3 with
    sessionName := name
    currentSessionActive := true
    profileCount := 0
    sessionStartUs := now }

/-- `std::replace(result.name.begin(), result.name.end(), c34, c39)`:
every double-quote character (code 34) becomes a single-quote character
(code 39). -/
def sanitizeName (nm : String) : String :=
  ⟨nm.data.map (fun c => if c = Char.ofNat 34 then Char.ofNat 39 else c)⟩

/-- The JSON object `writeProfile` streams for one profiling result,
with timestamps already made relative to the session baseline by
`uint64_t` subtraction. -/
def profileJson (baseline : Nat) (r : ProfileResult) : String :=
  "\x7b\"dur\":" ++
    toString (sub64 (sub64 r.endUs baseline) (sub64 r.startUs baseline)) ++
    ",\"cat\":\"function\",\"name\":\"" ++ sanitizeName r.name ++
    "\",\"ph\":\"X\",\"pid\":0,\"tid\":" ++ toString r.threadId ++
    ",\"ts\":" ++ toString (sub64 r.startUs baseline) ++ "\x7d"

/-- `Instrumentor::writeProfile`: no-op when no session is active;
otherwise writes `", "` before every event but the first
(`m_profileCount++ > 0`) followed by the event object, and flushes. -/
def writeProfile (r : ProfileResult) (s : InstrumentorState) :
    InstrumentorState :=
  if s.currentSessionActive then
    { s with
      profileCount := s.profileCount + 1
      outputStream := streamWrite
        ((if s.profileCount > 0 then ", " else "") ++
          profileJson s.sessionStartUs r)
        s.outputStream }
  else s

/-- A sequence of `writeProfile` calls. -/
def runWrites (rs : List ProfileResult) (s : InstrumentorState) :
    InstrumentorState :=
  rs.foldl (fun s r => writeProfile r s) s

/-- The bytes a sequence of `writeProfile` calls appends when the
profile counter starts at `k`. -/
def eventsChunk (baseline : Nat) : Nat → List ProfileResult → String
  | _, [] => ""
  | k, r :: rest =>
    (if 0 < k then ", " else "") ++ profileJson baseline r ++
      eventsChunk baseline (k + 1) rest

/-- The complete JSON document of one session that recorded exactly the
results `rs`, baseline `baseline`. -/
def traceDoc (baseline : Nat) (rs : List ProfileResult) : String :=
  headerStr ++ eventsChunk baseline 0 rs ++ footerStr

/-- A concrete mid-session state, as reached right after
`beginSession("W", "w.json")` at clock value 3; used by witnesses. -/
def sessionStateW : InstrumentorState :=
  { sessionName := "W"
    currentSessionActive := true
    outputStream :=
      { openPath := some "w.json", good := true, buffer := headerStr }
    profileCount := 0
    sessionStartUs := 3
    files := [] }

/-- A concrete profiling result whose name contains a double-quote;
used by witnesses. -/
def quoteResultW : ProfileResult :=
  { name := "NameWith\"Quote", startUs := 5, endUs := 9, threadId := 2 }

/-- A concrete mid-session state whose baseline (100) is later than the
witness interval below; used by witnesses. -/
def sessionStateB : InstrumentorState :=
  { sessionName := "B"
    currentSessionActive := true
    outputStream :=
      { openPath := some "b.json", good := true, buffer := headerStr }
    profileCount := 0
    sessionStartUs := 100
    files := [] }

/-- A concrete profiling result that starts and ends before
`sessionStateB`'s baseline, with `endUs < startUs`; used by witnesses. -/
def preSessionResultW : ProfileResult :=
  { name := "t", startUs := 7, endUs := 3, threadId := 1 }


/-- `InstrumentationTimer`'s fields. -/
structure TimerState where
  name : String
  stopped : Bool
  startUs : Nat
deriving DecidableEq, Repr

/-- The `InstrumentationTimer(const char*)` constructor at clock value
`now`. -/
def mkTimer (name : String) (now : Nat) : TimerState :=
  { name := name, stopped := false, startUs := now }

/-- `InstrumentationTimer::stop` at clock value `now` on thread
`threadId`: returns the updated timer together with the profiling
results this call submits to `Instrumentor::get().writeProfile` (none
when the timer was already stopped). -/
def timerStop (now threadId : Nat) (t : TimerState) :
    TimerState × List ProfileResult :=
  if t.stopped then (t, [])
  else ({ t with stopped := true },
    [{ name := t.name
       startUs := t.startUs
       endUs := now
       threadId := threadId }])

/-- The `~InstrumentationTimer` destructor: `if (!m_stopped) stop();`
returns the profiling results submitted. -/
def timerDestruct (now threadId : Nat) (t : TimerState) :
    List ProfileResult :=
  if t.stopped then [] else (timerStop now threadId t).2

/-- A sequence of explicit `stop()` calls on one timer, in order,
collecting all submissions. -/
def timerRunStops (stops : List (Nat × Nat)) (t : TimerState) :
    TimerState × List ProfileResult :=
  match stops with
  | [] => (t, [])
  | p :: rest =>
    let r := timerStop p.1 p.2 t
    let q := timerRunStops rest r.1
    (q.1, r.2 ++ q.2)

/-- All profiling results one timer submits over its lifetime:
constructed at `startNow`, explicitly stopped at each (time, thread)
pair of `stops` in order, finally destroyed at `dNow` on thread `dTid`. -/
def timerLifetime (name : String) (startNow : Nat) (stops : List (Nat × Nat))
    (dNow dTid : Nat) : List ProfileResult :=
  let r := timerRunStops stops (mkTimer name startNow)
  r.2 ++ timerDestruct dNow dTid r.1

/-- A concrete already-stopped timer; used by witnesses. -/
def stoppedTimerW : TimerState :=
  { name := "x", stopped := true, startUs := 0 }

/-- C1: on the sample sequence (7.5,[main]), (9.2,[main,my_fn]),
(10.7,[main]) the synthesizer produces exactly Start main at 7.5,
Start my_fn at 9.2, End my_fn at 10.7, in that order, with no further
events (in particular no trailing End for main). -/
theorem convertToTrace_example :
    convertToTrace
      [⟨7.5, ["main"]⟩, ⟨9.2, ["main", "my_fn"]⟩, ⟨10.7, ["main"]⟩] =
      [⟨7.5, "start", "main"⟩, ⟨9.2, "start", "my_fn"⟩,
       ⟨10.7, "end", "my_fn"⟩] := by
  simp +decide [convertToTrace, convertToTraceFull, processSample, closeLoop,
    closeLoopRev, openLoop]

/-- The close loop computes the takeWhile/dropWhile decomposition of the
(reversed) running stack at the frames absent from the sample's stack. -/
theorem closeLoopRev_eq (ts : ℚ) (stack : List String) :
    ∀ (l : List String) (acc : List Event),
    closeLoopRev ts stack acc l =
      (acc ++ (l.takeWhile (fun f => !stack.contains f)).map
          (fun f => ⟨ts, "end", f⟩),
       l.dropWhile (fun f => !stack.contains f)) := by
  intro l
  induction l with
  | nil => intro acc; simp [closeLoopRev]
  | cons top rest ih =>
    intro acc
    by_cases h : top ∈ stack
    · simp [closeLoopRev, h, List.takeWhile_cons, List.dropWhile_cons]
    · simp [closeLoopRev, h, ih, List.takeWhile_cons, List.dropWhile_cons]

/-- The open loop is the spec-side fold with an explicit accumulator. -/
theorem openLoop_eq_foldl (ts : ℚ) :
    ∀ (stack running : List String) (acc : List Event),
    openLoop ts running acc stack = stack.foldl (specOpenStep ts) (acc, running) := by
  intro stack
  induction stack with
  | nil => intro running acc; simp [openLoop]
  | cons f rest ih =>
    intro running acc
    by_cases h : f ∈ running
    · simp [openLoop, h, ih, specOpenStep]
    · simp [openLoop, h, ih, specOpenStep]

/-- Accumulator lemma for the spec-side open fold: events already
accumulated are a prefix and do not influence the new events. -/
theorem specOpenStep_foldl_acc (ts : ℚ) :
    ∀ (stack : List String) (evs : List Event) (running : List String),
    stack.foldl (specOpenStep ts) (evs, running) =
      (evs ++ (stack.foldl (specOpenStep ts) ([], running)).1,
       (stack.foldl (specOpenStep ts) ([], running)).2) := by
  intro stack
  induction stack with
  | nil => intro evs running; simp
  | cons f rest ih =>
    intro evs running
    by_cases h : f ∈ running
    · simpa [specOpenStep, h] using ih evs running
    · have e1 := ih (evs ++ [Event.mk ts "start" f]) (running ++ [f])
      have e2 := ih [Event.mk ts "start" f] (running ++ [f])
      simp [specOpenStep, h, e1, e2]

/-- Per-sample agreement of the source synthesizer step with the
spec-side step. -/
theorem processSample_eq_specStep (st : List Event × List String)
    (sample : Sample) : processSample st sample = specStep st sample := by
  unfold processSample specStep closeLoop specCloseStale specOpenNew
  rw [closeLoopRev_eq, openLoop_eq_foldl, specOpenStep_foldl_acc]

/-- C2: the synthesizer processes every sample by first closing stale
frames (popping the running stack while its top does not occur anywhere
in the sample's stack, emitting End events at the sample's timestamp)
and then opening, in root-to-leaf order, each frame of the sample's
stack not already a member of the running stack with a Start event at
the sample's timestamp: `convertToTrace` coincides with the spec-side
synthesizer built from exactly those words. -/
theorem convertToTrace_eq_specSynthesize :
    ∀ samples : List Sample, convertToTrace samples = specSynthesize samples := by
  intro samples
  unfold convertToTrace convertToTraceFull specSynthesize
  rw [show processSample = specStep from
    funext fun st => funext fun s => processSample_eq_specStep st s]

/-- Shape of the spec-side open step over a whole stack: it appends
Start events (at the sample's timestamp) and the same number of new
frame names to the running stack. -/
theorem specOpenNew_shape (ts : ℚ) :
    ∀ (stack running : List String), ∃ ss ns,
      specOpenNew ts stack running = (ss, running ++ ns) ∧
      (∀ e ∈ ss, e.kind = "start" ∧ e.ts = ts) ∧ ss.length = ns.length := by
  intro stack
  induction stack with
  | nil =>
    intro running
    exact ⟨[], [], by simp [specOpenNew], by simp, rfl⟩
  | cons f rest ih =>
    intro running
    by_cases h : f ∈ running
    · obtain ⟨ss, ns, he, hk, hl⟩ := ih running
      refine ⟨ss, ns, ?_, hk, hl⟩
      rw [show specOpenNew ts (f :: rest) running = specOpenNew ts rest running by
        simp [specOpenNew, specOpenStep, h]]
      exact he
    · obtain ⟨ss, ns, he, hk, hl⟩ := ih (running ++ [f])
      refine ⟨Event.mk ts "start" f :: ss, f :: ns, ?_, ?_, by simp [hl]⟩
      · have hstep : specOpenNew ts (f :: rest) running =
            List.foldl (specOpenStep ts) ([Event.mk ts "start" f], running ++ [f])
              rest := by
          simp [specOpenNew, specOpenStep, h]
        rw [hstep, specOpenStep_foldl_acc]
        have he' : List.foldl (specOpenStep ts) ([], running ++ [f]) rest =
            (ss, running ++ [f] ++ ns) := by
          have := he
          simp only [specOpenNew] at this
          simpa using this
        rw [he']
        simp
      · intro e hmem
        rcases List.mem_cons.mp hmem with rfl | hm
        · exact ⟨rfl, rfl⟩
        · exact hk e hm

/-- Counting events of kind `k` in a list whose events all have kind `k`. -/
theorem countKind_all_eq (k : String) (l : List Event)
    (h : ∀ e ∈ l, e.kind = k) : countKind k l = l.length := by
  unfold countKind
  refine List.countP_eq_length.mpr ?_
  intro e he
  simpa using h e he

/-- Counting events of kind `k` in a list whose events all have another
kind. -/
theorem countKind_all_ne (k : String) (l : List Event)
    (h : ∀ e ∈ l, e.kind ≠ k) : countKind k l = 0 := by
  unfold countKind
  refine List.countP_eq_zero.mpr ?_
  intro e he
  simpa using h e he

/-- One sample preserves the invariant: number of Start events emitted so
far equals number of End events plus the running stack's size. -/
theorem processSample_count (st : List Event × List String) (sample : Sample)
    (hinv : countKind "start" st.1 = countKind "end" st.1 + st.2.length) :
    countKind "start" (processSample st sample).1
      = countKind "end" (processSample st sample).1
        + (processSample st sample).2.length := by
  rw [processSample_eq_specStep]
  obtain ⟨ss, ns, he, hk, hl⟩ := specOpenNew_shape sample.ts sample.stack
    ((specCloseStale sample.ts sample.stack st.2).2)
  have hends : ∀ e ∈ (specCloseStale sample.ts sample.stack st.2).1,
      e.kind = "end" := by
    intro e hmem
    simp only [specCloseStale, List.mem_map] at hmem
    obtain ⟨f, _, rfl⟩ := hmem
    rfl
  have hsplit : (specCloseStale sample.ts sample.stack st.2).1.length
      + (specCloseStale sample.ts sample.stack st.2).2.length
      = st.2.length := by
    have := congrArg List.length
      (List.takeWhile_append_dropWhile
        (p := fun f => !sample.stack.contains f) (l := st.2.reverse))
    simp only [List.length_append, List.length_reverse] at this
    simpa [specCloseStale] using this
  simp only [specStep, he]
  simp only [countKind] at hinv ⊢
  rw [List.countP_append, List.countP_append, List.countP_append,
    List.countP_append]
  have h1 : List.countP (fun e => e.kind == "start")
      (specCloseStale sample.ts sample.stack st.2).1 = 0 := by
    have := countKind_all_ne "start" (specCloseStale sample.ts sample.stack st.2).1
      (fun e hmem => by rw [hends e hmem]; decide)
    simpa [countKind] using this
  have h2 : List.countP (fun e => e.kind == "end")
      (specCloseStale sample.ts sample.stack st.2).1
      = (specCloseStale sample.ts sample.stack st.2).1.length := by
    have := countKind_all_eq "end" (specCloseStale sample.ts sample.stack st.2).1
      hends
    simpa [countKind] using this
  have h3 : List.countP (fun e => e.kind == "start") ss = ss.length := by
    have := countKind_all_eq "start" ss (fun e hmem => (hk e hmem).1)
    simpa [countKind] using this
  have h4 : List.countP (fun e => e.kind == "end") ss = 0 := by
    have := countKind_all_ne "end" ss
      (fun e hmem => by rw [(hk e hmem).1]; decide)
    simpa [countKind] using this
  simp only [h1, h2, h3, h4, List.length_append]
  omega

/-- C3: across the whole input, the number of Start events exceeds the
number of End events by exactly the size of the final running stack: the
frames still open after the last sample receive no trailing End events,
so the output can contain Start events with no matching End. -/
theorem convertToTrace_no_trailing_end :
    ∀ samples : List Sample,
      countKind "start" (convertToTrace samples)
        = countKind "end" (convertToTrace samples)
          + (convertToTraceFull samples).2.length := by
  have main : ∀ (samples : List Sample) (st : List Event × List String),
      countKind "start" st.1 = countKind "end" st.1 + st.2.length →
      countKind "start" (samples.foldl processSample st).1
        = countKind "end" (samples.foldl processSample st).1
          + (samples.foldl processSample st).2.length := by
    intro samples
    induction samples with
    | nil => intro st h; simpa using h
    | cons s rest ih => intro st h; exact ih _ (processSample_count st s h)
  intro samples
  exact main samples ([], []) (by simp [countKind])

/-- Every event a sample step adds carries that sample's timestamp. -/
theorem processSample_ts (st : List Event × List String) (sample : Sample) :
    ∀ e ∈ (processSample st sample).1, e ∈ st.1 ∨ e.ts = sample.ts := by
  rw [processSample_eq_specStep]
  obtain ⟨ss, ns, he, hk, hl⟩ := specOpenNew_shape sample.ts sample.stack
    ((specCloseStale sample.ts sample.stack st.2).2)
  simp only [specStep, he]
  intro e hmem
  rcases List.mem_append.mp hmem with hmem' | hss
  · rcases List.mem_append.mp hmem' with hst | hcl
    · exact Or.inl hst
    · refine Or.inr ?_
      simp only [specCloseStale, List.mem_map] at hcl
      obtain ⟨f, _, rfl⟩ := hcl
      rfl
  · exact Or.inr (hk e hss).2

/-- C5 counterexample: on a sample sequence whose timestamps decrease
(10.7 followed by 7.5), `convertToTrace` performs no precondition check
and rejects nothing: it returns normally with a non-empty event list (its
type has no error channel at all), so the input is not "rejected with an
error instead of producing output". -/
theorem convertToTrace_no_order_check :
    convertToTrace [⟨10.7, ["main"]⟩, ⟨7.5, ["main", "my_fn"]⟩]
      = [⟨10.7, "start", "main"⟩, ⟨7.5, "start", "my_fn"⟩] ∧
    (7.5 : ℚ) < 10.7 := by
  constructor
  · simp +decide [convertToTrace, convertToTraceFull, processSample, closeLoop,
      closeLoopRev, openLoop]
  · norm_num

/-- C5 amended: the synthesizer never validates or rejects its input; it
is total on all sample sequences, ordered or not, and every event it
emits simply carries the timestamp of the sample that produced it. -/
theorem convertToTrace_total_on_unordered :
    ∀ (samples : List Sample) (e : Event), e ∈ convertToTrace samples →
      e.ts ∈ samples.map Sample.ts := by
  have main : ∀ (samples : List Sample) (st : List Event × List String)
      (e : Event), e ∈ (samples.foldl processSample st).1 →
      e ∈ st.1 ∨ e.ts ∈ samples.map Sample.ts := by
    intro samples
    induction samples with
    | nil => intro st e hmem; exact Or.inl (by simpa using hmem)
    | cons s rest ih =>
      intro st e hmem
      rcases ih (processSample st s) e hmem with hin | hts
      · rcases processSample_ts st s e hin with hin' | hts'
        · exact Or.inl hin'
        · exact Or.inr (by simp [hts'])
      · exact Or.inr (by simp; right; simpa using hts)
  intro samples e hmem
  rcases main samples ([], []) e hmem with hin | hts
  · simp at hin
  · exact hts

/-- Witness for the amended C5 theorem at a concrete out-of-order input. -/
theorem convertToTrace_total_on_unordered_witness :
    ((⟨10.7, "start", "main"⟩ : Event) ∈
      convertToTrace [⟨10.7, ["main"]⟩, ⟨7.5, ["main", "my_fn"]⟩]) ∧
    ((⟨10.7, "start", "main"⟩ : Event).ts ∈
      ([⟨10.7, ["main"]⟩, ⟨7.5, ["main", "my_fn"]⟩] : List Sample).map
        Sample.ts) :=
  have h : (⟨10.7, "start", "main"⟩ : Event) ∈
      convertToTrace [⟨10.7, ["main"]⟩, ⟨7.5, ["main", "my_fn"]⟩] := by
    simp +decide [convertToTrace, convertToTraceFull, processSample, closeLoop,
      closeLoopRev, openLoop]
  ⟨h, convertToTrace_total_on_unordered _ _ h⟩

/-- C6: with no active session, `endSession` and `writeProfile` are
no-ops: the returned state is identical (no bytes reach any sink, the
active flag, profile count, baseline and file system are unchanged), so
no event is ever written while no session is active. -/
theorem inactive_session_noop :
    ∀ (s : InstrumentorState) (r : ProfileResult),
      s.currentSessionActive = false →
      endSession s = s ∧ writeProfile r s = s := by
  intro s r h
  constructor
  · simp [endSession, h]
  · simp [writeProfile, h]

/-- Witness for C6 at the freshly constructed instrumentor. -/
theorem inactive_session_noop_witness :
    initialInstrumentor.currentSessionActive = false ∧
    endSession initialInstrumentor = initialInstrumentor ∧
    writeProfile { name := "ev", startUs := 1, endUs := 2, threadId := 3 }
      initialInstrumentor = initialInstrumentor :=
  ⟨rfl,
    (inactive_session_noop initialInstrumentor
      { name := "ev", startUs := 1, endUs := 2, threadId := 3 } rfl).1,
    (inactive_session_noop initialInstrumentor
      { name := "ev", startUs := 1, endUs := 2, threadId := 3 } rfl).2⟩

/-- C4 counterexample: when the output sink cannot be opened,
`beginSession` surfaces nothing to the caller — it returns normally
(its signature has no error channel and the code never checks the
stream), marks the session active anyway, and a subsequent
`writeProfile` silently drops the event: the stream and the file system
are unchanged.  Trace data is silently lost, contradicting the claim. -/
theorem beginSession_sink_failure_silent :
    (beginSession "S" "out.json" false 100
        initialInstrumentor).currentSessionActive = true ∧
    (beginSession "S" "out.json" false 100 initialInstrumentor).outputStream
      = { openPath := none, good := false, buffer := "" } ∧
    (writeProfile { name := "ev", startUs := 150, endUs := 200, threadId := 1 }
        (beginSession "S" "out.json" false 100
          initialInstrumentor)).outputStream
      = { openPath := none, good := false, buffer := "" } ∧
    (writeProfile { name := "ev", startUs := 150, endUs := 200, threadId := 1 }
        (beginSession "S" "out.json" false 100 initialInstrumentor)).files
      = [] :=
  ⟨rfl, rfl, rfl, rfl⟩

/-- C4 amended: a sink that cannot be opened is not surfaced: from any
inactive state, `beginSession` with an unavailable sink still activates
the session, leaves the stream failed with its buffer unchanged, and a
subsequent `writeProfile` changes nothing but the profile counter — the
serialized event is silently dropped. -/
theorem beginSession_sink_failure_general :
    ∀ (n p : String) (now : Nat) (r : ProfileResult) (s : InstrumentorState),
      s.currentSessionActive = false →
      s.outputStream.openPath = none →
      (beginSession n p false now s).currentSessionActive = true ∧
      (beginSession n p false now s).outputStream.good = false ∧
      (beginSession n p false now s).outputStream.buffer
        = s.outputStream.buffer ∧
      writeProfile r (beginSession n p false now s)
        = { beginSession n p false now s with
            profileCount := (beginSession n p false now s).profileCount + 1 } := by
  intro n p now r s hact hop
  obtain ⟨n0, a0, ⟨op, g0, b0⟩, pc, su, fs⟩ := s
  change a0 = false at hact
  change op = none at hop
  subst hact hop
  refine ⟨rfl, rfl, rfl, ?_⟩
  simp [beginSession, writeHeader, streamOpenTrunc, streamWrite, writeProfile]

/-- Witness for the amended C4 theorem at a concrete state. -/
theorem beginSession_sink_failure_general_witness :
    (beginSession "S" "o" false 7
        initialInstrumentor).currentSessionActive = true ∧
    (beginSession "S" "o" false 7 initialInstrumentor).outputStream.good
      = false ∧
    (beginSession "S" "o" false 7 initialInstrumentor).outputStream.buffer
      = initialInstrumentor.outputStream.buffer ∧
    writeProfile { name := "e", startUs := 9, endUs := 11, threadId := 2 }
        (beginSession "S" "o" false 7 initialInstrumentor)
      = { beginSession "S" "o" false 7 initialInstrumentor with
          profileCount :=
            (beginSession "S" "o" false 7 initialInstrumentor).profileCount
              + 1 } :=
  beginSession_sink_failure_general "S" "o" 7
    { name := "e", startUs := 9, endUs := 11, threadId := 2 }
    initialInstrumentor rfl rfl

/-- C8: with a session active, `writeProfile` streams the separator and
the event object whose name field is exactly the sanitized name;
sanitization maps the character sequence pointwise, replacing each
double-quote (code 34) with a single-quote (code 39) and leaving every
other character alone, and the sanitized name contains no double-quote
at all (in particular no escaped one). -/
theorem writeProfile_sanitizes :
    ∀ (s : InstrumentorState) (r : ProfileResult),
      s.currentSessionActive = true →
      writeProfile r s
        = { s with
            profileCount := s.profileCount + 1
            outputStream := streamWrite
              ((if s.profileCount > 0 then ", " else "") ++
                profileJson s.sessionStartUs r) s.outputStream } ∧
      (∃ pre post, profileJson s.sessionStartUs r
        = pre ++ "\"name\":\"" ++ sanitizeName r.name ++ "\"," ++ post) ∧
      (sanitizeName r.name).data
        = r.name.data.map
            (fun c => if c = Char.ofNat 34 then Char.ofNat 39 else c) ∧
      Char.ofNat 34 ∉ (sanitizeName r.name).data := by
  intro s r h
  refine ⟨by simp [writeProfile, h], ?_, rfl, ?_⟩
  · refine ⟨"\x7b\"dur\":" ++
      toString (sub64 (sub64 r.endUs s.sessionStartUs)
        (sub64 r.startUs s.sessionStartUs)) ++ ",\"cat\":\"function\",",
      "\"ph\":\"X\",\"pid\":0,\"tid\":" ++ toString r.threadId ++
        ",\"ts\":" ++ toString (sub64 r.startUs s.sessionStartUs) ++ "\x7d",
      ?_⟩
    have hsplit1 : (",\"cat\":\"function\",\"name\":\"" : String)
        = ",\"cat\":\"function\"," ++ "\"name\":\"" := rfl
    have hsplit2 : ("\",\"ph\":\"X\",\"pid\":0,\"tid\":" : String)
        = "\"," ++ "\"ph\":\"X\",\"pid\":0,\"tid\":" := rfl
    unfold profileJson
    rw [hsplit1, hsplit2]
    simp only [String.append_assoc]
  · intro hmem
    simp only [sanitizeName, List.mem_map] at hmem
    obtain ⟨c, _, hc⟩ := hmem
    by_cases h34 : c = Char.ofNat 34
    · rw [if_pos h34] at hc
      exact absurd hc (by decide)
    · rw [if_neg h34] at hc
      exact h34 hc

/-- Witness for C8 at a concrete active state and a name containing a
double-quote. -/
theorem writeProfile_sanitizes_witness :
    writeProfile quoteResultW sessionStateW
      = { sessionStateW with
          profileCount := sessionStateW.profileCount + 1
          outputStream := streamWrite
            ((if sessionStateW.profileCount > 0 then ", " else "") ++
              profileJson sessionStateW.sessionStartUs quoteResultW)
            sessionStateW.outputStream } ∧
    (∃ pre post, profileJson sessionStateW.sessionStartUs quoteResultW
      = pre ++ "\"name\":\"" ++
          sanitizeName quoteResultW.name ++ "\"," ++ post) ∧
    (sanitizeName quoteResultW.name).data
      = quoteResultW.name.data.map
          (fun c => if c = Char.ofNat 34 then Char.ofNat 39 else c) ∧
    Char.ofNat 34 ∉ (sanitizeName quoteResultW.name).data :=
  writeProfile_sanitizes sessionStateW quoteResultW rfl

/-- C10: session-relative timestamps are computed with unsigned 64-bit
subtraction.  When an interval starts before the session baseline, the
emitted `ts` wraps modulo 2^64 to the huge value
`startUs + 2^64 - baseline` (at least `2^64 - baseline`) instead of
being negative, the event is still emitted (nothing is rejected), and
when `endUs < startUs` the emitted `dur` likewise wraps to
`endUs + 2^64 - startUs`. -/
theorem writeProfile_wraps_u64 :
    ∀ (s : InstrumentorState) (r : ProfileResult),
      s.currentSessionActive = true →
      s.sessionStartUs < U64MOD →
      r.startUs < s.sessionStartUs →
      sub64 r.startUs s.sessionStartUs
        = r.startUs + U64MOD - s.sessionStartUs ∧
      U64MOD - s.sessionStartUs ≤ sub64 r.startUs s.sessionStartUs ∧
      (∃ pre, profileJson s.sessionStartUs r
        = pre ++ ",\"ts\":" ++
            toString (sub64 r.startUs s.sessionStartUs) ++ "\x7d") ∧
      writeProfile r s
        = { s with
            profileCount := s.profileCount + 1
            outputStream := streamWrite
              ((if s.profileCount > 0 then ", " else "") ++
                profileJson s.sessionStartUs r) s.outputStream } ∧
      (r.endUs < r.startUs →
        sub64 (sub64 r.endUs s.sessionStartUs)
            (sub64 r.startUs s.sessionStartUs)
          = r.endUs + U64MOD - r.startUs) := by
  intro s r hact hb hlt
  have hM : U64MOD = 18446744073709551616 := by norm_num [U64MOD]
  have h1 : sub64 r.startUs s.sessionStartUs
      = r.startUs + U64MOD - s.sessionStartUs := by
    unfold sub64
    rw [hM] at hb ⊢
    omega
  refine ⟨h1, by omega, ⟨_, rfl⟩, by simp [writeProfile, hact], ?_⟩
  intro hend
  have h2 : sub64 r.endUs s.sessionStartUs
      = r.endUs + U64MOD - s.sessionStartUs := by
    unfold sub64
    rw [hM] at hb ⊢
    omega
  rw [h1, h2]
  unfold sub64
  rw [hM] at hb ⊢
  omega

/-- Witness for C10: baseline 100, interval 7..3 (both before the
baseline, and end before start). -/
theorem writeProfile_wraps_u64_witness :
    sub64 preSessionResultW.startUs sessionStateB.sessionStartUs
      = preSessionResultW.startUs + U64MOD - sessionStateB.sessionStartUs ∧
    U64MOD - sessionStateB.sessionStartUs
      ≤ sub64 preSessionResultW.startUs sessionStateB.sessionStartUs ∧
    (∃ pre, profileJson sessionStateB.sessionStartUs preSessionResultW
      = pre ++ ",\"ts\":" ++
          toString (sub64 preSessionResultW.startUs
            sessionStateB.sessionStartUs) ++ "\x7d") ∧
    writeProfile preSessionResultW sessionStateB
      = { sessionStateB with
          profileCount := sessionStateB.profileCount + 1
          outputStream := streamWrite
            ((if sessionStateB.profileCount > 0 then ", " else "") ++
              profileJson sessionStateB.sessionStartUs preSessionResultW)
            sessionStateB.outputStream } ∧
    (preSessionResultW.endUs < preSessionResultW.startUs →
      sub64 (sub64 preSessionResultW.endUs sessionStateB.sessionStartUs)
          (sub64 preSessionResultW.startUs sessionStateB.sessionStartUs)
        = preSessionResultW.endUs + U64MOD - preSessionResultW.startUs) :=
  writeProfile_wraps_u64 sessionStateB preSessionResultW rfl
    (by norm_num [sessionStateB, U64MOD])
    (by norm_num [preSessionResultW, sessionStateB])

/-- Stopping an already-stopped timer submits nothing and leaves the
timer unchanged. -/
theorem timerRunStops_stopped :
    ∀ (stops : List (Nat × Nat)) (t : TimerState), t.stopped = true →
      timerRunStops stops t = (t, []) := by
  intro stops
  induction stops with
  | nil => intro t h; rfl
  | cons p rest ih =>
    intro t h
    simp [timerRunStops, timerStop, h, ih t h]

/-- A single timer's lifetime submits exactly one completed interval,
however many explicit stops precede destruction. -/
theorem timerLifetime_length_one :
    ∀ (name : String) (startNow : Nat) (stops : List (Nat × Nat))
      (dNow dTid : Nat),
      (timerLifetime name startNow stops dNow dTid).length = 1 := by
  intro name startNow stops dNow dTid
  cases stops with
  | nil => rfl
  | cons p rest =>
    simp [timerLifetime, timerRunStops, timerStop, mkTimer, timerDestruct,
      timerRunStops_stopped rest { name := name, stopped := true, startUs := startNow } rfl]

/-- C9: `stop` is idempotent — on an already-stopped timer it submits
nothing and changes nothing, and the destructor after a stop submits
nothing — and any sequence of N distinct timer lifetimes (each
eventually destroyed) submits exactly N completed intervals to the
Instrumentor. -/
theorem timer_stop_idempotent_exactly_once :
    (∀ (t : TimerState) (now tid : Nat), t.stopped = true →
      timerStop now tid t = (t, []) ∧ timerDestruct now tid t = []) ∧
    (∀ specs : List (String × Nat × List (Nat × Nat) × Nat × Nat),
      (specs.map (fun a =>
        (timerLifetime a.1 a.2.1 a.2.2.1 a.2.2.2.1 a.2.2.2.2).length)).sum
        = specs.length) := by
  constructor
  · intro t now tid h
    exact ⟨by simp [timerStop, h], by simp [timerDestruct, h]⟩
  · intro specs
    induction specs with
    | nil => rfl
    | cons a rest ih => simp [ih, timerLifetime_length_one, Nat.add_comm]

/-- Witness for C9: a stopped timer, plus a concrete pair of lifetimes
(one with an explicit stop before destruction, one destroyed directly)
yielding exactly two submissions. -/
theorem timer_stop_idempotent_exactly_once_witness :
    timerStop 5 6 stoppedTimerW = (stoppedTimerW, []) ∧
    timerDestruct 5 6 stoppedTimerW = [] ∧
    ([("a", 0, [(1, 2)], 3, 4), ("b", 5, ([] : List (Nat × Nat)), 6, 7)].map
      (fun a =>
        (timerLifetime a.1 a.2.1 a.2.2.1 a.2.2.2.1 a.2.2.2.2).length)).sum
      = 2 :=
  ⟨(timer_stop_idempotent_exactly_once.1 stoppedTimerW 5 6 (by rfl)).1,
   (timer_stop_idempotent_exactly_once.1 stoppedTimerW 5 6 (by rfl)).2,
   timer_stop_idempotent_exactly_once.2
     [("a", 0, [(1, 2)], 3, 4), ("b", 5, ([] : List (Nat × Nat)), 6, 7)]⟩

/-- Beginning a session while one is active equals ending it first. -/
theorem begin_active_eq (nm p : String) (avail : Bool) (now : Nat)
    (s : InstrumentorState) (h : s.currentSessionActive = true) :
    beginSession nm p avail now s
      = beginSession nm p avail now (endSession s) := by
  have h2 : (endSession s).currentSessionActive = false := by
    simp [endSession, h]
  simp [beginSession, h, h2]

/-- From an inactive state with a closed, good stream, `beginSession`
yields the canonical start-of-session state. -/
theorem beginSession_from_inactive (nm p : String) (now : Nat)
    (s : InstrumentorState) (hact : s.currentSessionActive = false)
    (hop : s.outputStream.openPath = none)
    (hgood : s.outputStream.good = true) :
    beginSession nm p true now s
      = { sessionName := nm
          currentSessionActive := true
          outputStream :=
            { openPath := some p, good := true, buffer := headerStr }
          profileCount := ((0 : Nat) : Int)
          sessionStartUs := now
          files := s.files } := by
  obtain ⟨n0, a0, ⟨op, g0, b0⟩, pc, su, fs⟩ := s
  change a0 = false at hact
  change op = none at hop
  change g0 = true at hgood
  subst hact hop hgood
  simp [beginSession, writeHeader, streamOpenTrunc, streamWrite,
    String.empty_append]

/-- A run of `writeProfile` calls in a live session appends exactly the
chunk of serialized events and advances the profile counter. -/
theorem runWrites_active :
    ∀ (rs : List ProfileResult) (nm p buf : String) (k base : Nat)
      (fs : List (String × String)),
      runWrites rs
        { sessionName := nm
          currentSessionActive := true
          outputStream := { openPath := some p, good := true, buffer := buf }
          profileCount := ((k : Nat) : Int)
          sessionStartUs := base
          files := fs }
        = { sessionName := nm
            currentSessionActive := true
            outputStream :=
              { openPath := some p
                good := true
                buffer := buf ++ eventsChunk base k rs }
            profileCount := ((k + rs.length : Nat) : Int)
            sessionStartUs := base
            files := fs } := by
  intro rs
  induction rs with
  | nil =>
    intro nm p buf k base fs
    simp [runWrites, eventsChunk]
  | cons r rest ih =>
    intro nm p buf k base fs
    have hw : writeProfile r
        { sessionName := nm
          currentSessionActive := true
          outputStream := { openPath := some p, good := true, buffer := buf }
          profileCount := ((k : Nat) : Int)
          sessionStartUs := base
          files := fs }
        = { sessionName := nm
            currentSessionActive := true
            outputStream :=
              { openPath := some p
                good := true
                buffer := buf ++
                  ((if 0 < k then ", " else "") ++ profileJson base r) }
            profileCount := ((k + 1 : Nat) : Int)
            sessionStartUs := base
            files := fs } := by
      simp [writeProfile, streamWrite]
    have hstep : runWrites (r :: rest)
        { sessionName := nm
          currentSessionActive := true
          outputStream := { openPath := some p, good := true, buffer := buf }
          profileCount := ((k : Nat) : Int)
          sessionStartUs := base
          files := fs }
        = runWrites rest (writeProfile r
            { sessionName := nm
              currentSessionActive := true
              outputStream :=
                { openPath := some p, good := true, buffer := buf }
              profileCount := ((k : Nat) : Int)
              sessionStartUs := base
              files := fs }) := rfl
    rw [hstep, hw, ih nm p _ (k + 1) base fs]
    simp [eventsChunk, String.append_assoc]
    omega

/-- Ending a live session appends the footer, closes the file into the
file system log, and resets the session state. -/
theorem endSession_active_state (nm p buf : String) (k : Int) (base : Nat)
    (fs : List (String × String)) :
    endSession
      { sessionName := nm
        currentSessionActive := true
        outputStream := { openPath := some p, good := true, buffer := buf }
        profileCount := k
        sessionStartUs := base
        files := fs }
      = { sessionName := nm
          currentSessionActive := false
          outputStream := { openPath := none, good := true, buffer := "" }
          profileCount := 0
          sessionStartUs := 0
          files := fs ++ [(p, buf ++ footerStr)] } := by
  simp [endSession, writeFooter, streamWrite, streamClose]

/-- C7: `beginSession` on an active session performs the full end
procedure first, and beginning twice without an intervening end yields
two fully valid, independently closed JSON documents — header, the
serialized events of exactly that session's intervals, footer — one per
file. -/
theorem beginSession_twice_independent_docs :
    (∀ (nm p : String) (avail : Bool) (now : Nat) (s : InstrumentorState),
      s.currentSessionActive = true →
      beginSession nm p avail now s
        = beginSession nm p avail now (endSession s)) ∧
    (∀ (n1 p1 n2 p2 : String) (t1 t2 : Nat)
      (rs1 rs2 : List ProfileResult) (s0 : InstrumentorState),
      s0.currentSessionActive = false →
      s0.outputStream.openPath = none →
      s0.outputStream.good = true →
      (endSession (runWrites rs2 (beginSession n2 p2 true t2
          (runWrites rs1 (beginSession n1 p1 true t1 s0))))).files
        = s0.files ++ [(p1, traceDoc t1 rs1), (p2, traceDoc t2 rs2)]) := by
  constructor
  · exact begin_active_eq
  · intro n1 p1 n2 p2 t1 t2 rs1 rs2 s0 h1 h2 h3
    rw [beginSession_from_inactive n1 p1 t1 s0 h1 h2 h3]
    rw [runWrites_active rs1 n1 p1 headerStr 0 t1 s0.files]
    rw [begin_active_eq n2 p2 true t2 _ rfl]
    rw [endSession_active_state]
    rw [beginSession_from_inactive n2 p2 t2 _ rfl rfl rfl]
    rw [runWrites_active rs2 n2 p2 headerStr 0 t2 _]
    rw [endSession_active_state]
    simp [traceDoc]

/-- Witness for C7 at concrete sessions: one recorded interval in the
first session, none in the second. -/
theorem beginSession_twice_independent_docs_witness :
    (sessionStateW.currentSessionActive = true ∧
     beginSession "A" "o" true 4 sessionStateW
       = beginSession "A" "o" true 4 (endSession sessionStateW)) ∧
    ((endSession (runWrites [] (beginSession "B" "o2" true 20
        (runWrites [quoteResultW] (beginSession "A" "o1" true 10
          initialInstrumentor))))).files
      = initialInstrumentor.files ++
          [("o1", traceDoc 10 [quoteResultW]), ("o2", traceDoc 20 [])]) :=
  ⟨⟨rfl, beginSession_twice_independent_docs.1 "A" "o" true 4 sessionStateW
      (by rfl)⟩,
   beginSession_twice_independent_docs.2 "A" "o1" "B" "o2" 10 20
     [quoteResultW] [] initialInstrumentor (by rfl) (by rfl) (by rfl)⟩

end CppStackTracer
